import Mathlib

/-!
Shallow embedding of the notbyai.space backend (src/backend/server.py):
a FastAPI service over two MongoDB collections (`users`, `posts`).

Modelling conventions:
* A MongoDB collection is a `List` of documents in natural order;
  `update_one` updates the first matching document (`updateFirst`) and is a
  no-op when nothing matches; `find_one` is `List.find?`; `insert_one`
  appends; `.sort(field, dir)` is `insertionSort` by the field;
  `.limit(n)` / `.to_list(n)` is `List.take n`.
* `datetime.now(timezone.utc)` timestamps are abstract `Nat` instants passed
  in explicitly; the `strftime('%Y-%m-%d')` calendar-day string is an
  explicit `today : String` argument.
* Freshly generated `uuid4` identifiers are explicit arguments.
* `HTTPException(status_code, detail)` is the `HTTPError` structure; FastAPI
  request-body validation by pydantic is modelled by an explicit parse
  function on the raw JSON fields (pydantic requires declared fields, coerces
  the tag string into the `ContentTag` enum, rejects with 422 on failure, and
  silently ignores extra keys when a model is built from a dict).
* Handlers raising mid-request return `Except HTTPError`; where the python
  writes to the store before a possible raise, the store is returned in both
  branches (`Store × Except HTTPError _`).
-/

namespace NotByAI

/-- UserRole enum from server.py: new_user, moderator, seed_user. -/
inductive UserRole where
  | new_user
  | moderator
  | seed_user
deriving DecidableEq, Repr

/-- PostStatus enum from server.py: pending, approved, rejected. -/
inductive PostStatus where
  | pending
  | approved
  | rejected
deriving DecidableEq, Repr

/-- ContentTag enum from server.py: the fixed category enumeration. -/
inductive ContentTag where
  | HUMAN2HUMAN
  | INNERWORLD
  | WITSPARK
  | DEEPTHOUGHT
  | HEARTLED
  | CULTURALSOUL
  | ADAPTFLOW
deriving DecidableEq, Repr

/-- The string value of each ContentTag member, as in the python enum. -/
def ContentTag.value : ContentTag → String
  | .HUMAN2HUMAN => "Human2Human"
  | .INNERWORLD => "InnerWorld"
  | .WITSPARK => "WitSpark"
  | .DEEPTHOUGHT => "DeepThought"
  | .HEARTLED => "HeartLed"
  | .CULTURALSOUL => "CulturalSoul"
  | .ADAPTFLOW => "AdaptFlow"

/-- Pydantic coercion of a raw string into the ContentTag enum. -/
def parseContentTag (s : String) : Option ContentTag :=
  if s = "Human2Human" then some .HUMAN2HUMAN
  else if s = "InnerWorld" then some .INNERWORLD
  else if s = "WitSpark" then some .WITSPARK
  else if s = "DeepThought" then some .DEEPTHOUGHT
  else if s = "HeartLed" then some .HEARTLED
  else if s = "CulturalSoul" then some .CULTURALSOUL
  else if s = "AdaptFlow" then some .ADAPTFLOW
  else none

/-- User document (model `User` in server.py). -/
structure User where
  id : String
  clerk_id : String
  email : String
  role : UserRole
  posts_today : Nat
  last_post_date : Option String
  created_at : Nat
deriving DecidableEq, Repr

/-- Post document (model `Post` in server.py). -/
structure Post where
  id : String
  user_id : String
  content : String
  tag : ContentTag
  status : PostStatus
  resonates : Nat
  cherishes : Nat
  created_at : Nat
  reviewed_at : Option Nat
  reviewer_id : Option String
deriving DecidableEq, Repr

/-- Request body of PUT /posts/{id}/review (model `PostUpdate`). -/
structure PostUpdate where
  status : PostStatus
  reviewer_id : String
deriving DecidableEq, Repr

/-- Parsed request body of POST /posts (model `PostCreate`). -/
structure PostCreate where
  content : String
  tag : ContentTag
deriving DecidableEq, Repr

/-- Raw JSON body of POST /posts before pydantic validation: each declared
field is present (`some`) or missing (`none`); the tag arrives as a string. -/
structure RawPostCreate where
  content : Option String
  tag : Option String
deriving DecidableEq, Repr

/-- The database: the `users` and `posts` collections. -/
structure Store where
  users : List User
  posts : List Post
deriving DecidableEq, Repr

/-- An `HTTPException(status_code, detail)`. -/
structure HTTPError where
  status_code : Nat
  detail : String
deriving DecidableEq, Repr

def rateLimitErr : HTTPError := ⟨429, "Daily post limit reached (3 posts per day)"⟩
def moderatorErr : HTTPError := ⟨403, "Moderator access required"⟩
def postNotFoundErr : HTTPError := ⟨404, "Post not found"⟩
def alreadyReviewedErr : HTTPError := ⟨400, "Post already reviewed"⟩
def invalidPayloadErr : HTTPError := ⟨400, "Invalid token payload"⟩
def userNotFoundErr : HTTPError := ⟨404, "User not found"⟩
/-- FastAPI rejects a body failing pydantic validation with a 422 response. -/
def validationErr : HTTPError := ⟨422, "Unprocessable Entity"⟩

instance {ε α : Type _} [DecidableEq ε] [DecidableEq α] :
    DecidableEq (Except ε α) := fun x y =>
  match x, y with
  | .ok a, .ok b =>
    if h : a = b then .isTrue (by rw [h])
    else .isFalse (by intro hh; cases hh; exact h rfl)
  | .error a, .error b =>
    if h : a = b then .isTrue (by rw [h])
    else .isFalse (by intro hh; cases hh; exact h rfl)
  | .ok _, .error _ => .isFalse (by intro hh; cases hh)
  | .error _, .ok _ => .isFalse (by intro hh; cases hh)

/-- MongoDB `update_one`: apply `f` to the first element satisfying `p`;
a no-op when nothing matches. -/
def updateFirst (p : α → Bool) (f : α → α) : List α → List α
  | [] => []
  | x :: xs => if p x then f x :: xs else x :: updateFirst p f xs

/-- Pydantic validation of the POST /posts body: both declared fields are
required and the tag string must coerce into the ContentTag enum; note that
`content : str` accepts any string, the empty string included. -/
def parsePostCreate (r : RawPostCreate) : Except HTTPError PostCreate :=
  match r.content, r.tag with
  | some c, some t =>
    match parseContentTag t with
    | some tag => .ok ⟨c, tag⟩
    | none => .error validationErr
  | _, _ => .error validationErr

/-- The decoded bearer-token payload fields used by the handlers. -/
structure TokenPayload where
  sub : Option String
  email : Option String
deriving DecidableEq, Repr

/-- Python truthiness of `payload.get(k)`: `None` and `""` are falsy. -/
def truthyStr : Option String → Bool
  | none => false
  | some s => !(s = "")

/-- get_current_user: look the caller up by clerk_id; 404 if not synced. -/
def get_current_user (clerk_id : String) (st : Store) : Except HTTPError User :=
  match st.users.find? (fun u => u.clerk_id = clerk_id) with
  | none => .error userNotFoundErr
  | some u => .ok u

/-- require_moderator: the caller must hold the moderator or seed_user role. -/
def require_moderator (user : User) : Except HTTPError User :=
  if user.role = .moderator ∨ user.role = .seed_user then .ok user
  else .error moderatorErr

/-- check_daily_limit: on a day rollover (last_post_date differs from today)
persist posts_today := 0 and last_post_date := today, mirroring the write on
the in-memory user; then raise 429 if posts_today ≥ 3. The store is returned
in both branches because the rollover write precedes the raise. -/
def check_daily_limit (today : String) (user : User) (st : Store) :
    Store × Except HTTPError User :=
  let reset :=
    if user.last_post_date ≠ some today then
      ({ user with posts_today := 0, last_post_date := some today },
       { st with
          users := updateFirst (fun u => u.id = user.id)
            (fun u => { u with posts_today := 0, last_post_date := some today })
            st.users })
    else (user, st)
  if reset.1.posts_today ≥ 3 then (reset.2, .error rateLimitErr)
  else (reset.2, .ok reset.1)

/-- create_post handler body (after the get_current_user dependency):
run the daily-limit check, insert the new pending post, then $inc the
caller's posts_today by 1. Returns the new post's id on success. -/
def create_post (post_data : PostCreate) (user : User)
    (newId : String) (now : Nat) (today : String) (st : Store) :
    Store × Except HTTPError String :=
  match check_daily_limit today user st with
  | (st1, .error e) => (st1, .error e)
  | (st1, .ok user1) =>
    let post : Post :=
      { id := newId
        user_id := user1.id
        content := post_data.content
        tag := post_data.tag
        status := .pending
        resonates := 0
        cherishes := 0
        created_at := now
        reviewed_at := none
        reviewer_id := none }
    let st2 := { st1 with posts := st1.posts ++ [post] }
    let st3 := { st2 with
      users := updateFirst (fun u => u.id = user1.id)
        (fun u => { u with posts_today := u.posts_today + 1 }) st2.users }
    (st3, .ok post.id)

/-- POST /posts end to end: resolve the caller from the bearer subject, then
run the create_post body. -/
def create_post_endpoint (clerk_id : String) (post_data : PostCreate)
    (newId : String) (now : Nat) (today : String) (st : Store) :
    Store × Except HTTPError String :=
  match get_current_user clerk_id st with
  | .error e => (st, .error e)
  | .ok user => create_post post_data user newId now today st

/-- review_post: the require_moderator dependency runs first (403), then the
post is fetched (404), the pending guard checked (400), and on success the
status, review timestamp and reviewer id are written. -/
def review_post (post_id : String) (review_data : PostUpdate) (caller : User)
    (now : Nat) (st : Store) : Except HTTPError Store :=
  match require_moderator caller with
  | .error e => .error e
  | .ok moderator =>
    match st.posts.find? (fun p => p.id = post_id) with
    | none => .error postNotFoundErr
    | some post =>
      if post.status ≠ PostStatus.pending then .error alreadyReviewedErr
      else
        .ok { st with
          posts := updateFirst (fun p => p.id = post_id)
            (fun p => { p with
                        status := review_data.status
                        reviewed_at := some now
                        reviewer_id := some moderator.id }) st.posts }

/-- Ascending creation-time order (`.sort("created_at", 1)`). -/
def createdLe (a b : Post) : Prop := a.created_at ≤ b.created_at

/-- Descending creation-time order (`.sort("created_at", -1)`). -/
def createdGe (a b : Post) : Prop := b.created_at ≤ a.created_at

instance : DecidableRel createdLe := fun _ _ => Nat.decLe _ _
instance : DecidableRel createdGe := fun _ _ => Nat.decLe _ _
instance : IsTotal Post createdLe := ⟨fun _ _ => Nat.le_total _ _⟩
instance : IsTrans Post createdLe := ⟨fun _ _ _ h h2 => Nat.le_trans h h2⟩
instance : IsTotal Post createdGe := ⟨fun _ _ => Nat.le_total _ _⟩
instance : IsTrans Post createdGe := ⟨fun _ _ _ h h2 => Nat.le_trans h2 h⟩

/-- The email annotation loop shared by GET /posts/pending and GET /feed:
pair each post document with the owner's email, or the given placeholder
when the user lookup misses. -/
def annotateEmail (placeholder : String) (st : Store) (p : Post) :
    Post × String :=
  match st.users.find? (fun u => u.id = p.user_id) with
  | some u => (p, u.email)
  | none => (p, placeholder)

/-- GET /posts/pending, up to the `Post(**post)` rebuild: pending posts in
ascending creation-time order (first 100), each dict annotated with the
owner's email or "Unknown". -/
def get_pending_annotated (st : Store) : List (Post × String) :=
  (((st.posts.filter (fun p => p.status = .pending)).insertionSort
      createdLe).take 100).map (annotateEmail "Unknown" st)

/-- GET /posts/pending response: `[Post(**post) for post in posts]` rebuilds
each annotated dict as a `Post` model, and pydantic drops the extra
`user_email` key. -/
def get_pending_posts (st : Store) : List Post :=
  (get_pending_annotated st).map Prod.fst

/-- GET /posts/approved response: approved posts in descending creation-time
order (first 100); no annotation loop here. -/
def get_approved_posts (st : Store) : List Post :=
  ((st.posts.filter (fun p => p.status = .approved)).insertionSort
      createdGe).take 100

/-- GET /feed, up to the `Post(**post)` rebuild: the 3 most recent approved
posts (by creation time, descending), each dict annotated with the owner's
email or "Anonymous". -/
def get_daily_feed_annotated (st : Store) : List (Post × String) :=
  (((st.posts.filter (fun p => p.status = .approved)).insertionSort
      createdGe).take 3).map (annotateEmail "Anonymous" st)

/-- GET /feed response: `[Post(**post) for post in posts]` rebuilds each
annotated dict as a `Post` model, and pydantic drops the extra `user_email`
key. -/
def get_daily_feed (st : Store) : List Post :=
  (get_daily_feed_annotated st).map Prod.fst

/-- POST /posts/{id}/resonate: $inc the resonates counter of the first post
matching the id; a silent no-op when no post matches; always returns 200. -/
def resonate_post (post_id : String) (st : Store) : Store :=
  { st with
    posts := updateFirst (fun p => p.id = post_id)
      (fun p => { p with resonates := p.resonates + 1 }) st.posts }

/-- POST /posts/{id}/cherish: $inc the cherishes counter of the first post
matching the id; a silent no-op when no post matches; always returns 200. -/
def cherish_post (post_id : String) (st : Store) : Store :=
  { st with
    posts := updateFirst (fun p => p.id = post_id)
      (fun p => { p with cherishes := p.cherishes + 1 }) st.posts }

/-- Result of POST /auth/sync: either "User created" with the new record or
"User exists" with the stored record. -/
inductive SyncResult where
  | created (u : User)
  | existing (u : User)
deriving DecidableEq, Repr

/-- sync_user: 400 unless the payload carries truthy sub and email; then
create a new_user on first sight of the clerk subject, otherwise return the
stored record unchanged. -/
def sync_user (payload : TokenPayload) (newUserId : String) (now : Nat)
    (st : Store) : Store × Except HTTPError SyncResult :=
  if truthyStr payload.sub ∧ truthyStr payload.email then
    match payload.sub, payload.email with
    | some sub, some email =>
      (match st.users.find? (fun u => u.clerk_id = sub) with
       | none =>
         let newUser : User :=
           { id := newUserId
             clerk_id := sub
             email := email
             role := .new_user
             posts_today := 0
             last_post_date := none
             created_at := now }
         ({ st with users := st.users ++ [newUser] },
          .ok (.created newUser))
       | some u => (st, .ok (.existing u)))
    | _, _ => (st, .error invalidPayloadErr)
  else (st, .error invalidPayloadErr)

/-- A create-post request: the parsed body plus the request's fresh uuid and
its arrival instant. -/
structure CreateReq where
  pd : PostCreate
  pid : String
  now : Nat
deriving DecidableEq, Repr

/-- A sequence of POST /posts requests by the same bearer subject on the
same calendar day, stopping at the first failure. -/
def createSeq (c today : String) : List CreateReq → Store → Store × Except HTTPError Unit
  | [], st => (st, .ok ())
  | r :: rs, st =>
    match create_post_endpoint c r.pd r.pid r.now today st with
    | (st1, .ok _) => createSeq c today rs st1
    | (st1, .error e) => (st1, .error e)

/-- The caller's user document sits at a definite slot in the users
collection: it is the first document carrying its clerk_id and the first
carrying its id (both are uuid identifiers, unique in practice), so the
clerk_id lookup of the auth dependency and the id-keyed updates of the
handlers address the same document. -/
def userSlot (c : String) (u : User) (st : Store) : Prop :=
  ∃ l₁ l₂, st.users = l₁ ++ u :: l₂ ∧ u.clerk_id = c ∧
    (∀ v ∈ l₁, v.clerk_id ≠ c) ∧ (∀ v ∈ l₁, v.id ≠ u.id)

/-! ### Concrete fixtures used by witnesses and counterexamples -/

def modC2 : User := ⟨"m1", "cm1", "mod@x.co", .moderator, 0, none, 0⟩
def postC2 : Post := ⟨"p1", "u1", "hello", .HUMAN2HUMAN, .pending, 0, 0, 10, none, none⟩
def stC2 : Store := ⟨[modC2], [postC2]⟩
/-- stC2 after a review of p1 whose requested status is pending: the post
stays pending but gains a review stamp. -/
def stC2a : Store :=
  ⟨[modC2], [⟨"p1", "u1", "hello", .HUMAN2HUMAN, .pending, 0, 0, 10, some 11, some "m1"⟩]⟩

/-- stC2 after a proper approval of p1. -/
def postC2app : Post :=
  ⟨"p1", "u1", "hello", .HUMAN2HUMAN, .approved, 0, 0, 10, some 5, some "m1"⟩
def stC2app : Store := ⟨[modC2], [postC2app]⟩

def nonModC3 : User := ⟨"n1", "cn1", "new@x.co", .new_user, 0, none, 0⟩
def approvedC3 : Post := ⟨"p2", "u1", "done", .WITSPARK, .approved, 0, 0, 9, none, none⟩
def stC3 : Store := ⟨[modC2, nonModC3], [postC2, approvedC3]⟩

def userC4 : User := ⟨"u4", "c4", "u4@x.co", .new_user, 2, some "2025-01-01", 0⟩
def otherC4 : User := ⟨"u9", "c9", "u9@x.co", .new_user, 0, none, 0⟩
def stC4 : Store := ⟨[otherC4, userC4], []⟩

def ownerC5 : User := ⟨"u1", "c1", "owner@example.com", .new_user, 0, none, 0⟩
def postC5 : Post := ⟨"p1", "u1", "hello", .HUMAN2HUMAN, .approved, 0, 0, 10, none, none⟩
def orphanC5 : Post := ⟨"p2", "ghost", "hey", .WITSPARK, .approved, 0, 0, 9, none, none⟩
def stC5 : Store := ⟨[ownerC5], [postC5, orphanC5]⟩

def pendA : Post := ⟨"q1", "u1", "one", .HUMAN2HUMAN, .pending, 0, 0, 20, none, none⟩
def pendB : Post := ⟨"q2", "u1", "two", .INNERWORLD, .pending, 0, 0, 5, none, none⟩
def apprA : Post := ⟨"q3", "u1", "three", .WITSPARK, .approved, 0, 0, 7, none, none⟩
def apprB : Post := ⟨"q4", "u1", "four", .HEARTLED, .approved, 0, 0, 30, none, none⟩
def stC6 : Store := ⟨[ownerC5], [pendA, pendB, apprA, apprB]⟩

def userC7 : User := ⟨"u7", "c7", "u7@x.co", .new_user, 0, none, 0⟩
def stC7 : Store := ⟨[userC7], []⟩

def userC8 : User := ⟨"u8", "c8", "u8@x.co", .new_user, 0, none, 0⟩
def stC8 : Store := ⟨[userC8], []⟩

def postC9 : Post := ⟨"p1", "u1", "hello", .HUMAN2HUMAN, .approved, 4, 7, 10, none, none⟩
def stC9 : Store := ⟨[ownerC5], [postC9]⟩

def userC10 : User := ⟨"u1", "c1", "a@b.co", .new_user, 3, some "2025-01-02", 0⟩
def stC10 : Store := ⟨[userC10], []⟩
def pdC10 : PostCreate := ⟨"hi there", .HUMAN2HUMAN⟩

def userC1 : User := ⟨"u1", "c1", "a@b.co", .new_user, 2, some "2025-01-01", 0⟩
def stC1 : Store := ⟨[userC1], []⟩
def reqsC1 : List CreateReq :=
  [⟨⟨"one", .HUMAN2HUMAN⟩, "p1", 11⟩, ⟨⟨"two", .WITSPARK⟩, "p2", 12⟩,
   ⟨⟨"three", .HEARTLED⟩, "p3", 13⟩]

/-! ### Generic lemmas about the MongoDB collection primitives -/

/-- updateFirst is the identity when no element matches. -/
theorem updateFirst_of_forall_neg {p : α → Bool} (f : α → α) :
    ∀ {l : List α}, (∀ x ∈ l, p x = false) → updateFirst p f l = l := by
  intro l
  induction l with
  | nil => intro _; rfl
  | cons a t ih =>
    intro h
    have ha := h a (List.mem_cons_self _ _)
    simp only [updateFirst, ha]
    simp only [Bool.false_eq_true, if_false, List.cons.injEq, true_and]
    exact ih fun x hx => h x (List.mem_cons_of_mem _ hx)

/-- updateFirst is the identity when find? misses. -/
theorem updateFirst_of_find?_eq_none {p : α → Bool} (f : α → α) {l : List α}
    (h : l.find? p = none) : updateFirst p f l = l :=
  updateFirst_of_forall_neg f fun x hx => by
    have := List.find?_eq_none.mp h x hx
    simpa using this

/-- A successful find? splits the list at the first match. -/
theorem find?_decomp {p : α → Bool} :
    ∀ {l : List α} {x : α}, l.find? p = some x →
      ∃ l₁ l₂, l = l₁ ++ x :: l₂ ∧ (∀ y ∈ l₁, p y = false) ∧ p x = true := by
  intro l
  induction l with
  | nil => intro x h; simp at h
  | cons a t ih =>
    intro x h
    cases hpa : p a with
    | true =>
      rw [List.find?_cons_of_pos _ hpa] at h
      cases h
      exact ⟨[], t, rfl, by simp, hpa⟩
    | false =>
      rw [List.find?_cons_of_neg _ (by simp [hpa])] at h
      obtain ⟨l₁, l₂, rfl, h1, h2⟩ := ih h
      refine ⟨a :: l₁, l₂, rfl, ?_, h2⟩
      intro y hy
      rcases List.mem_cons.mp hy with rfl | hy
      · exact hpa
      · exact h1 y hy

/-- updateFirst rewrites exactly the head of the matching suffix. -/
theorem updateFirst_append_cons {p : α → Bool} (f : α → α) {x : α} :
    ∀ {l₁ : List α} (l₂ : List α), (∀ y ∈ l₁, p y = false) → p x = true →
      updateFirst p f (l₁ ++ x :: l₂) = l₁ ++ f x :: l₂ := by
  intro l₁
  induction l₁ with
  | nil => intro l₂ _ hx; simp [updateFirst, hx]
  | cons a t ih =>
    intro l₂ h hx
    have ha := h a (List.mem_cons_self _ _)
    simp only [List.cons_append, updateFirst, ha]
    simp only [Bool.false_eq_true, if_false, List.cons.injEq, true_and]
    exact ih l₂ (fun y hy => h y (List.mem_cons_of_mem _ hy)) hx

/-- find? hits the head of the matching suffix. -/
theorem find?_append_cons {p : α → Bool} {x : α} :
    ∀ {l₁ : List α} (l₂ : List α), (∀ y ∈ l₁, p y = false) → p x = true →
      (l₁ ++ x :: l₂).find? p = some x := by
  intro l₁
  induction l₁ with
  | nil => intro l₂ _ hx; simp [List.find?, hx]
  | cons a t ih =>
    intro l₂ h hx
    have ha := h a (List.mem_cons_self _ _)
    rw [List.cons_append, List.find?_cons_of_neg _ (by simp [ha])]
    exact ih l₂ (fun y hy => h y (List.mem_cons_of_mem _ hy)) hx

/-- Mapping a function invariant under the update commutes away updateFirst. -/
theorem map_updateFirst {p : α → Bool} (f : α → α) (g : α → β)
    (hg : ∀ x, g (f x) = g x) :
    ∀ (l : List α), (updateFirst p f l).map g = l.map g := by
  intro l
  induction l with
  | nil => rfl
  | cons a t ih =>
    by_cases hpa : p a
    · simp [updateFirst, hpa, hg]
    · simp [updateFirst, hpa, ih]

/-! ### Helper lemmas about the handlers -/

/-- When last_post_date already equals today the check writes nothing: only
the quota test runs. -/
theorem check_daily_limit_sameday {today : String} {u : User} (st : Store)
    (hday : u.last_post_date = some today) :
    check_daily_limit today u st =
      (st, if 3 ≤ u.posts_today then .error rateLimitErr else .ok u) := by
  unfold check_daily_limit
  simp only [hday, ne_eq, not_true_eq_false, if_false, ge_iff_le]
  split_ifs <;> rfl

/-- On a day rollover the check persists the reset and returns the reset
user; the quota test then sees the reset counter 0 and passes. -/
theorem check_daily_limit_rollover {today : String} {u : User} (st : Store)
    (hday : u.last_post_date ≠ some today) :
    check_daily_limit today u st =
      (⟨updateFirst (fun v => v.id = u.id)
          (fun v => { v with posts_today := 0, last_post_date := some today })
          st.users, st.posts⟩,
       .ok { u with posts_today := 0, last_post_date := some today }) := by
  unfold check_daily_limit
  simp only [ne_eq, hday, not_false_eq_true, if_true, ge_iff_le]
  rfl

/-- The daily-limit check never touches the posts collection. -/
theorem check_daily_limit_posts (today : String) (u : User) (st : Store) :
    ((check_daily_limit today u st).1).posts = st.posts := by
  simp only [check_daily_limit]
  split_ifs <;> rfl

/-- Claim C10: when post creation hits the daily rate limit (the caller's
last_post_date already equals the current UTC day and posts_today is at
least 3), the request fails with the 429 error and the store is returned
entirely unchanged: no post is inserted and no user document is written. -/
theorem create_post_rate_limited_leaves_store_unchanged
    (pd : PostCreate) (u : User) (pid : String) (now : Nat) (today : String)
    (st : Store) (hday : u.last_post_date = some today)
    (hquota : 3 ≤ u.posts_today) :
    create_post pd u pid now today st = (st, .error rateLimitErr) ∧
    (∀ c, st.users.find? (fun v => v.clerk_id = c) = some u →
      create_post_endpoint c pd pid now today st = (st, .error rateLimitErr)) := by
  have h1 : check_daily_limit today u st = (st, .error rateLimitErr) := by
    rw [check_daily_limit_sameday st hday, if_pos hquota]
  have h2 : create_post pd u pid now today st = (st, .error rateLimitErr) := by
    unfold create_post
    rw [h1]
  refine ⟨h2, ?_⟩
  intro c hc
  unfold create_post_endpoint get_current_user
  rw [hc]
  exact h2

/-- Witness for C10 at a concrete store: a user with 3 posts today whose
fourth create attempt 429s and leaves the store as it was. -/
theorem create_post_rate_limited_witness :
    create_post pdC10 userC10 "p9" 7 "2025-01-02" stC10 =
      (stC10, .error rateLimitErr) ∧
    create_post_endpoint "c1" pdC10 "p9" 7 "2025-01-02" stC10 =
      (stC10, .error rateLimitErr) := by
  have h := create_post_rate_limited_leaves_store_unchanged pdC10 userC10 "p9" 7
    "2025-01-02" stC10 (by decide) (by decide)
  exact ⟨h.1, h.2 "c1" (by decide)⟩

/-- Claim C9: resonate and cherish each increment exactly the named counter
of the first post matching the id by exactly 1 (every other field of that
post, every other post, and the users collection are untouched), and both
operations are total, succeeding for any authenticated caller; when no post
matches the id they are silent no-ops leaving the store unchanged. -/
theorem resonate_cherish_increment_exactly_one
    (post_id : String) (st : Store) :
    (∀ p, st.posts.find? (fun q => q.id = post_id) = some p →
      ∃ l₁ l₂, st.posts = l₁ ++ p :: l₂ ∧
        resonate_post post_id st =
          ⟨st.users, l₁ ++ { p with resonates := p.resonates + 1 } :: l₂⟩ ∧
        cherish_post post_id st =
          ⟨st.users, l₁ ++ { p with cherishes := p.cherishes + 1 } :: l₂⟩) ∧
    (st.posts.find? (fun q => q.id = post_id) = none →
      resonate_post post_id st = st ∧ cherish_post post_id st = st) := by
  constructor
  · intro p hp
    obtain ⟨l₁, l₂, hsplit, hneg, hpos⟩ := find?_decomp hp
    refine ⟨l₁, l₂, hsplit, ?_, ?_⟩
    · unfold resonate_post
      rw [hsplit, updateFirst_append_cons _ _ hneg hpos]
    · unfold cherish_post
      rw [hsplit, updateFirst_append_cons _ _ hneg hpos]
  · intro hnone
    constructor
    · unfold resonate_post
      rw [updateFirst_of_find?_eq_none _ hnone]
    · unfold cherish_post
      rw [updateFirst_of_find?_eq_none _ hnone]

/-- Witness for C9 at a concrete store: the matched post's counters move
from 4 resonates / 7 cherishes to 5 / 7 and 4 / 8 respectively, and an
unknown id changes nothing. -/
theorem resonate_cherish_witness :
    (∃ l₁ l₂, stC9.posts = l₁ ++ postC9 :: l₂ ∧
      resonate_post "p1" stC9 =
        ⟨stC9.users, l₁ ++ { postC9 with resonates := postC9.resonates + 1 } :: l₂⟩ ∧
      cherish_post "p1" stC9 =
        ⟨stC9.users, l₁ ++ { postC9 with cherishes := postC9.cherishes + 1 } :: l₂⟩) ∧
    (resonate_post "nope" stC9 = stC9 ∧ cherish_post "nope" stC9 = stC9) :=
  ⟨(resonate_cherish_increment_exactly_one "p1" stC9).1 postC9 (by decide),
   (resonate_cherish_increment_exactly_one "nope" stC9).2 (by decide)⟩

/-- Claim C8: with both a subject identifier and an email in the credential
payload, sync creates a new user with default role new_user (zero quota, no
last post date) and returns it as a "created" result when no user carries
that clerk subject, and otherwise returns the stored record unchanged as an
"exists" result with the store untouched; a payload missing the subject or
the email fails with the 400 error. -/
theorem sync_user_create_or_fetch
    (payload : TokenPayload) (nid : String) (now : Nat) (st : Store) :
    ((payload.sub = none ∨ payload.email = none) →
      sync_user payload nid now st = (st, .error invalidPayloadErr)) ∧
    (∀ s e, payload.sub = some s → payload.email = some e →
      s ≠ "" → e ≠ "" →
      (st.users.find? (fun v => v.clerk_id = s) = none →
        ∃ nu, sync_user payload nid now st =
            (⟨st.users ++ [nu], st.posts⟩, .ok (.created nu)) ∧
          nu.id = nid ∧ nu.clerk_id = s ∧ nu.email = e ∧
          nu.role = .new_user ∧ nu.posts_today = 0 ∧
          nu.last_post_date = none ∧ nu.created_at = now) ∧
      (∀ u, st.users.find? (fun v => v.clerk_id = s) = some u →
        sync_user payload nid now st = (st, .ok (.existing u)))) := by
  constructor
  · intro h
    rcases h with h | h <;>
      simp [sync_user, h, truthyStr]
  · intro s e hs he hsne hene
    have htr : truthyStr payload.sub = true ∧ truthyStr payload.email = true := by
      rw [hs, he]
      simp [truthyStr, hsne, hene]
    constructor
    · intro hfind
      refine ⟨⟨nid, s, e, .new_user, 0, none, now⟩, ?_, rfl, rfl, rfl, rfl, rfl, rfl, rfl⟩
      unfold sync_user
      rw [if_pos (by simpa using htr)]
      rw [hs, he]
      simp only [hfind]
    · intro u hfind
      unfold sync_user
      rw [if_pos (by simpa using htr)]
      rw [hs, he]
      simp only [hfind]

/-- Witness for C8 at a concrete store: a payload missing the email 400s, a
fresh subject is created as a new_user, and a known subject returns the
stored record with the store unchanged. -/
theorem sync_user_witness :
    sync_user ⟨some "c8", none⟩ "n1" 5 stC8 = (stC8, .error invalidPayloadErr) ∧
    (∃ nu, sync_user ⟨some "fresh", some "f@x.co"⟩ "n1" 5 stC8 =
        (⟨stC8.users ++ [nu], stC8.posts⟩, .ok (.created nu)) ∧
      nu.id = "n1" ∧ nu.clerk_id = "fresh" ∧ nu.email = "f@x.co" ∧
      nu.role = .new_user ∧ nu.posts_today = 0 ∧
      nu.last_post_date = none ∧ nu.created_at = 5) ∧
    sync_user ⟨some "c8", some "other@x.co"⟩ "n1" 5 stC8 =
      (stC8, .ok (.existing userC8)) :=
  ⟨(sync_user_create_or_fetch ⟨some "c8", none⟩ "n1" 5 stC8).1 (Or.inr rfl),
   ((sync_user_create_or_fetch ⟨some "fresh", some "f@x.co"⟩ "n1" 5 stC8).2
      "fresh" "f@x.co" rfl rfl (by decide) (by decide)).1 (by decide),
   ((sync_user_create_or_fetch ⟨some "c8", some "other@x.co"⟩ "n1" 5 stC8).2
      "c8" "other@x.co" rfl rfl (by decide) (by decide)).2 userC8 (by decide)⟩

/-- A successful tag coercion always lands on the member whose enum value is
the raw string. -/
theorem parseContentTag_value {t : String} {tg : ContentTag}
    (h : parseContentTag t = some tg) : tg.value = t := by
  unfold parseContentTag at h
  split_ifs at h with h1 h2 h3 h4 h5 h6 h7 <;>
    cases h <;> simp_all [ContentTag.value]

/-- Claim C7 counterexample: an empty content string sails through pydantic
validation (content is only required to be a string) and the resulting
create succeeds, contrary to the claim that empty content fails with a
validation error. -/
theorem empty_content_is_accepted :
    parsePostCreate ⟨some "", some "Human2Human"⟩ =
      .ok ⟨"", .HUMAN2HUMAN⟩ ∧
    (create_post ⟨"", .HUMAN2HUMAN⟩ userC7 "p1" 5 "2025-01-02" stC7).2 =
      .ok "p1" := by
  constructor
  · rfl
  · decide

/-- Claim C7 (amended): post creation fails with the validation error
whenever the supplied tag string is not the value of any member of the fixed
category enumeration, and whenever the content or tag field is missing from
the body; an empty content string is accepted; when creation succeeds the
new post has status pending and carries the submitted content and tag. -/
theorem post_validation_and_pending_status :
    (∀ c t, (∀ tg : ContentTag, tg.value ≠ t) →
      parsePostCreate ⟨some c, some t⟩ = .error validationErr) ∧
    (∀ t, parsePostCreate ⟨none, t⟩ = .error validationErr) ∧
    (∀ c, parsePostCreate ⟨c, none⟩ = .error validationErr) ∧
    (∀ t tg, parseContentTag t = some tg →
      parsePostCreate ⟨some "", some t⟩ = .ok ⟨"", tg⟩) ∧
    (∀ pd u pid now today st st1 rid,
      create_post pd u pid now today st = (st1, .ok rid) →
      ∃ q : Post, st1.posts = st.posts ++ [q] ∧ q.status = .pending ∧
        q.content = pd.content ∧ q.tag = pd.tag ∧ q.id = rid ∧ rid = pid) := by
  refine ⟨?_, ?_, ?_, ?_, ?_⟩
  · intro c t htag
    cases hp : parseContentTag t with
    | none => simp [parsePostCreate, hp]
    | some tg => exact absurd (parseContentTag_value hp) (htag tg)
  · intro t
    cases t <;> rfl
  · intro c
    cases c <;> rfl
  · intro t tg hp
    simp [parsePostCreate, hp]
  · intro pd u pid now today st st1 rid h
    unfold create_post at h
    cases hcheck : check_daily_limit today u st with
    | mk stc r =>
      rw [hcheck] at h
      cases r with
      | error e => simp at h
      | ok user1 =>
        simp only [] at h
        obtain ⟨hst, hrid⟩ := Prod.mk.injEq .. ▸ h
        refine ⟨⟨pid, user1.id, pd.content, pd.tag, .pending, 0, 0, now, none, none⟩,
          ?_, rfl, rfl, rfl, ?_, ?_⟩
        · rw [← hst]
          have hposts : stc.posts = st.posts := by
            have := check_daily_limit_posts today u st
            rw [hcheck] at this
            exact this
          simp [hposts]
        · cases h
          rfl
        · cases h
          rfl

/-- Witness for C7 (amended) at concrete inputs: a bad tag and missing
fields 422, the empty content passes, and a successful create stores a
pending post with the submitted fields. -/
theorem post_validation_witness :
    parsePostCreate ⟨some "hi", some "NotATag"⟩ = .error validationErr ∧
    parsePostCreate ⟨none, some "Human2Human"⟩ = .error validationErr ∧
    parsePostCreate ⟨some "hi", none⟩ = .error validationErr ∧
    parsePostCreate ⟨some "", some "WitSpark"⟩ = .ok ⟨"", .WITSPARK⟩ ∧
    (∃ q : Post, (create_post ⟨"hi", .WITSPARK⟩ userC7 "p1" 5 "2025-01-02" stC7).1.posts =
        stC7.posts ++ [q] ∧ q.status = .pending ∧
      q.content = "hi" ∧ q.tag = .WITSPARK ∧ q.id = "p1" ∧ "p1" = "p1") := by
  have h := post_validation_and_pending_status
  refine ⟨h.1 "hi" "NotATag" (by intro tg; cases tg <;> decide), h.2.1 (some "Human2Human"),
    h.2.2.1 (some "hi"), h.2.2.2.1 "WitSpark" .WITSPARK rfl, ?_⟩
  exact h.2.2.2.2 ⟨"hi", .WITSPARK⟩ userC7 "p1" 5 "2025-01-02" stC7
    (create_post ⟨"hi", .WITSPARK⟩ userC7 "p1" 5 "2025-01-02" stC7).1 "p1" (by decide)

/-- Claim C5 (code-bug evidence): at a store holding one approved post with
an existing owner and one whose owner record is missing, the handler's
annotation loop computes the owner email and the "Anonymous" placeholder
and never aborts, yet the response — the dicts rebuilt as Post models —
carries no email annotation at all (the Post model has no user_email field,
and pydantic silently drops the extra key). The bounded-to-3, approved-only
and never-fails parts of the claim hold of the same definitions. -/
theorem feed_annotation_is_dropped_from_response :
    get_daily_feed_annotated stC5 =
      [(postC5, "owner@example.com"), (orphanC5, "Anonymous")] ∧
    get_daily_feed stC5 = [postC5, orphanC5] ∧
    (∀ st : Store, get_daily_feed st =
      (get_daily_feed_annotated st).map Prod.fst) := by
  refine ⟨by decide, by decide, fun st => rfl⟩

/-- Unfolding get_pending_posts past the dropped annotation. -/
theorem get_pending_posts_eq (st : Store) :
    get_pending_posts st =
      ((st.posts.filter (fun p => p.status = .pending)).insertionSort
        createdLe).take 100 := by
  unfold get_pending_posts get_pending_annotated
  rw [List.map_map]
  have h : (Prod.fst ∘ annotateEmail "Unknown" st) = id := by
    funext p
    simp only [Function.comp_apply, annotateEmail, id_eq]
    split <;> rfl
  rw [h, List.map_id]

/-- Unfolding get_daily_feed past the dropped annotation. -/
theorem get_daily_feed_eq (st : Store) :
    get_daily_feed st =
      ((st.posts.filter (fun p => p.status = .approved)).insertionSort
        createdGe).take 3 := by
  unfold get_daily_feed get_daily_feed_annotated
  rw [List.map_map]
  have h : (Prod.fst ∘ annotateEmail "Anonymous" st) = id := by
    funext p
    simp only [Function.comp_apply, annotateEmail, id_eq]
    split <;> rfl
  rw [h, List.map_id]

/-- Claim C6: the pending listing is sorted by ascending creation time and
holds only pending posts; the approved listing and the feed are sorted by
descending creation time and hold only approved posts (ordering is by the
created_at stamp, never the review stamp); below the 100-document driver
cap the listings are exactly the posts of the respective status. -/
theorem listing_order (st : Store) :
    List.Sorted createdLe (get_pending_posts st) ∧
    (∀ p ∈ get_pending_posts st, p.status = .pending) ∧
    List.Sorted createdGe (get_approved_posts st) ∧
    (∀ p ∈ get_approved_posts st, p.status = .approved) ∧
    List.Sorted createdGe (get_daily_feed st) ∧
    (∀ p ∈ get_daily_feed st, p.status = .approved) ∧
    ((st.posts.filter (fun p => p.status = .pending)).length ≤ 100 →
      List.Perm (get_pending_posts st)
        (st.posts.filter (fun p => p.status = .pending))) ∧
    ((st.posts.filter (fun p => p.status = .approved)).length ≤ 100 →
      List.Perm (get_approved_posts st)
        (st.posts.filter (fun p => p.status = .approved))) := by
  have hpend := get_pending_posts_eq st
  have hfeed := get_daily_feed_eq st
  refine ⟨?_, ?_, ?_, ?_, ?_, ?_, ?_, ?_⟩
  · rw [hpend]
    exact List.Pairwise.sublist (List.take_sublist _ _)
      (List.sorted_insertionSort createdLe _)
  · intro p hp
    rw [hpend] at hp
    have hp2 := (List.mem_insertionSort createdLe).mp (List.mem_of_mem_take hp)
    have := (List.mem_filter.mp hp2).2
    simpa using this
  · exact List.Pairwise.sublist (List.take_sublist _ _)
      (List.sorted_insertionSort createdGe _)
  · intro p hp
    have hp2 := (List.mem_insertionSort createdGe).mp (List.mem_of_mem_take hp)
    have := (List.mem_filter.mp hp2).2
    simpa using this
  · rw [hfeed]
    exact List.Pairwise.sublist (List.take_sublist _ _)
      (List.sorted_insertionSort createdGe _)
  · intro p hp
    rw [hfeed] at hp
    have hp2 := (List.mem_insertionSort createdGe).mp (List.mem_of_mem_take hp)
    have := (List.mem_filter.mp hp2).2
    simpa using this
  · intro hlen
    rw [hpend, List.take_of_length_le (by simpa [List.length_insertionSort] using hlen)]
    exact List.perm_insertionSort createdLe _
  · intro hlen
    unfold get_approved_posts
    rw [List.take_of_length_le (by simpa [List.length_insertionSort] using hlen)]
    exact List.perm_insertionSort createdGe _

/-- Witness for C6 at a concrete store: its two pending posts come back
oldest first, its two approved posts newest first, and both listings are
permutations of the matching filters. -/
theorem listing_order_witness :
    List.Sorted createdLe (get_pending_posts stC6) ∧
    pendA.status = .pending ∧
    List.Sorted createdGe (get_approved_posts stC6) ∧
    apprA.status = .approved ∧
    List.Sorted createdGe (get_daily_feed stC6) ∧
    List.Perm (get_pending_posts stC6)
      (stC6.posts.filter (fun p => p.status = .pending)) ∧
    List.Perm (get_approved_posts stC6)
      (stC6.posts.filter (fun p => p.status = .approved)) := by
  have h := listing_order stC6
  exact ⟨h.1, h.2.1 pendA (by decide), h.2.2.1, h.2.2.2.1 apprA (by decide),
    h.2.2.2.2.1, h.2.2.2.2.2.2.1 (by decide), h.2.2.2.2.2.2.2 (by decide)⟩

/-- Claim C3: review fails 403 when the caller is neither moderator nor
seed_user; with a privileged caller it fails 404 when no post matches the
id, fails 400 ("already reviewed") when the matched post is not pending,
and on a pending post succeeds, after which the post looked up by that id
carries the requested status, the review timestamp and the reviewing
moderator's id, with the users collection untouched. Guards apply in that
order: the role dependency runs before the handler body. -/
theorem review_post_guards
    (post_id : String) (rd : PostUpdate) (caller : User) (now : Nat) (st : Store) :
    (¬(caller.role = .moderator ∨ caller.role = .seed_user) →
      review_post post_id rd caller now st = .error moderatorErr) ∧
    ((caller.role = .moderator ∨ caller.role = .seed_user) →
      (st.posts.find? (fun p => p.id = post_id) = none →
        review_post post_id rd caller now st = .error postNotFoundErr) ∧
      (∀ post, st.posts.find? (fun p => p.id = post_id) = some post →
        (post.status ≠ .pending →
          review_post post_id rd caller now st = .error alreadyReviewedErr) ∧
        (post.status = .pending →
          ∃ st1, review_post post_id rd caller now st = .ok st1 ∧
            st1.users = st.users ∧
            st1.posts.find? (fun p => p.id = post_id) =
              some { post with status := rd.status, reviewed_at := some now, reviewer_id := some caller.id }))) := by
  constructor
  · intro ha
    unfold review_post require_moderator
    rw [if_neg ha]
  · intro hrole
    have hmod : require_moderator caller = .ok caller := by
      unfold require_moderator
      rw [if_pos hrole]
    constructor
    · intro hfind
      simp only [review_post, hmod, hfind]
    · intro post hfind
      constructor
      · intro hne
        simp only [review_post, hmod, hfind]
        rw [if_pos hne]
      · intro hpend
        obtain ⟨l₁, l₂, hsplit, hneg, hpos⟩ := find?_decomp hfind
        refine ⟨⟨st.users,
          l₁ ++ { post with status := rd.status, reviewed_at := some now, reviewer_id := some caller.id } :: l₂⟩,
          ?_, rfl, ?_⟩
        · simp only [review_post, hmod, hfind]
          rw [if_neg (by simp [hpend])]
          rw [hsplit, updateFirst_append_cons _ _ hneg hpos]
        · exact find?_append_cons _ hneg (by simpa using hpos)

/-- Witness for C3 at a concrete store: a new_user caller 403s, a
moderator 404s on an unknown id, 400s on the approved post, and approving
the pending post stamps status, timestamp and reviewer id. -/
theorem review_post_guards_witness :
    review_post "p1" ⟨.approved, "m1"⟩ nonModC3 5 stC3 = .error moderatorErr ∧
    review_post "zz" ⟨.approved, "m1"⟩ modC2 5 stC3 = .error postNotFoundErr ∧
    review_post "p2" ⟨.approved, "m1"⟩ modC2 5 stC3 = .error alreadyReviewedErr ∧
    (∃ st1, review_post "p1" ⟨.approved, "m1"⟩ modC2 5 stC3 = .ok st1 ∧
      st1.users = stC3.users ∧
      st1.posts.find? (fun p => p.id = "p1") =
        some { postC2 with status := .approved, reviewed_at := some 5, reviewer_id := some "m1" }) := by
  refine ⟨(review_post_guards "p1" ⟨.approved, "m1"⟩ nonModC3 5 stC3).1 (by decide), ?_, ?_, ?_⟩
  · exact ((review_post_guards "zz" ⟨.approved, "m1"⟩ modC2 5 stC3).2 (Or.inl rfl)).1 (by decide)
  · exact (((review_post_guards "p2" ⟨.approved, "m1"⟩ modC2 5 stC3).2 (Or.inl rfl)).2
      approvedC3 (by decide)).1 (by decide)
  · exact (((review_post_guards "p1" ⟨.approved, "m1"⟩ modC2 5 stC3).2 (Or.inl rfl)).2
      postC2 (by decide)).2 rfl

/-- Claim C4: when the daily-limit check runs with last_post_date equal to
the current day, the store comes back untouched (no reset ever happens
mid-day); when last_post_date differs, the caller's document is rewritten
in place to posts_today = 0 and last_post_date = today — both persisted,
every other document and the posts collection unchanged — and running the
check again that day (third conjunct) is a no-op, so the reset happens
exactly once per new calendar day. -/
theorem daily_rollover_reset (today : String) (u : User) (st : Store) :
    (u.last_post_date = some today →
      check_daily_limit today u st =
        (st, if 3 ≤ u.posts_today then .error rateLimitErr else .ok u)) ∧
    (u.last_post_date ≠ some today →
      ∀ l₁ l₂, st.users = l₁ ++ u :: l₂ → (∀ v ∈ l₁, v.id ≠ u.id) →
      check_daily_limit today u st =
        (⟨l₁ ++ { u with posts_today := 0, last_post_date := some today } :: l₂, st.posts⟩,
         .ok { u with posts_today := 0, last_post_date := some today }) ∧
      check_daily_limit today { u with posts_today := 0, last_post_date := some today }
          ⟨l₁ ++ { u with posts_today := 0, last_post_date := some today } :: l₂, st.posts⟩ =
        (⟨l₁ ++ { u with posts_today := 0, last_post_date := some today } :: l₂, st.posts⟩,
         .ok { u with posts_today := 0, last_post_date := some today })) := by
  constructor
  · intro hday
    exact check_daily_limit_sameday st hday
  · intro hday l₁ l₂ hsplit hneq
    constructor
    · rw [check_daily_limit_rollover st hday]
      rw [hsplit, updateFirst_append_cons _ _
        (fun v hv => decide_eq_false (hneq v hv)) (by simp)]
    · rw [check_daily_limit_sameday _ rfl]
      rw [if_neg (by simp)]

/-- Witness for C4 at a concrete store: a stale 2-posts counter survives a
same-day check untouched, is reset in place on the next day's first check,
and a repeated check that day changes nothing. -/
theorem daily_rollover_reset_witness :
    check_daily_limit "2025-01-01" userC4 stC4 = (stC4, .ok userC4) ∧
    check_daily_limit "2025-01-02" userC4 stC4 =
      (⟨[otherC4, { userC4 with posts_today := 0, last_post_date := some "2025-01-02" }], []⟩,
       .ok { userC4 with posts_today := 0, last_post_date := some "2025-01-02" }) ∧
    check_daily_limit "2025-01-02"
        { userC4 with posts_today := 0, last_post_date := some "2025-01-02" }
        ⟨[otherC4, { userC4 with posts_today := 0, last_post_date := some "2025-01-02" }], []⟩ =
      (⟨[otherC4, { userC4 with posts_today := 0, last_post_date := some "2025-01-02" }], []⟩,
       .ok { userC4 with posts_today := 0, last_post_date := some "2025-01-02" }) := by
  have h1 := (daily_rollover_reset "2025-01-01" userC4 stC4).1 rfl
  have h2 := (daily_rollover_reset "2025-01-02" userC4 stC4).2 (by decide)
    [otherC4] [] rfl (by decide)
  exact ⟨by rw [h1]; decide, h2.1, h2.2⟩

/-- The moderator gate only ever returns the caller itself, and only when
the caller holds a privileged role. -/
theorem require_moderator_eq_ok {u v : User} (h : require_moderator u = .ok v) :
    v = u ∧ (u.role = .moderator ∨ u.role = .seed_user) := by
  unfold require_moderator at h
  split_ifs at h with hr
  cases h
  exact ⟨rfl, hr⟩

/-- A privileged review of a non-pending post fails with the conflict
error. -/
theorem review_post_already_reviewed {post_id : String} {rd : PostUpdate}
    {caller : User} {now : Nat} {st : Store} {q : Post}
    (hrole : caller.role = .moderator ∨ caller.role = .seed_user)
    (hfind : st.posts.find? (fun p => p.id = post_id) = some q)
    (hq : q.status ≠ .pending) :
    review_post post_id rd caller now st = .error alreadyReviewedErr := by
  have hmod : require_moderator caller = .ok caller := by
    unfold require_moderator
    rw [if_pos hrole]
  simp only [review_post, hmod, hfind]
  rw [if_pos hq]

/-- Anatomy of a successful review: the caller was privileged, the users
collection is untouched, and the posts collection differs exactly at the
first post matching the id, which was pending and now carries the
requested status, the review stamp and the reviewer id. -/
theorem review_post_ok_decomp {post_id : String} {rd : PostUpdate}
    {caller : User} {now : Nat} {st st1 : Store}
    (h : review_post post_id rd caller now st = .ok st1) :
    (caller.role = .moderator ∨ caller.role = .seed_user) ∧
    st1.users = st.users ∧
    ∃ l₁ l₂ x, st.posts = l₁ ++ x :: l₂ ∧ x.status = .pending ∧
      (∀ y ∈ l₁, (decide (y.id = post_id)) = false) ∧
      (decide (x.id = post_id)) = true ∧
      st1.posts =
        l₁ ++ { x with status := rd.status, reviewed_at := some now, reviewer_id := some caller.id } :: l₂ := by
  cases hrm : require_moderator caller with
  | error e =>
    unfold review_post at h
    rw [hrm] at h
    simp at h
  | ok m =>
    obtain ⟨hm, hrole⟩ := require_moderator_eq_ok hrm
    subst hm
    refine ⟨hrole, ?_⟩
    cases hfind : st.posts.find? (fun p => p.id = post_id) with
    | none => simp [review_post, hrm, hfind] at h
    | some post =>
      simp only [review_post, hrm, hfind] at h
      split_ifs at h with hq
      cases h
      obtain ⟨l₁, l₂, hsplit, hneg, hpos⟩ := find?_decomp hfind
      refine ⟨rfl, l₁, l₂, post, hsplit, not_not.mp hq, hneg, hpos, ?_⟩
      show updateFirst _ _ st.posts = _
      rw [hsplit, updateFirst_append_cons _ _ hneg hpos]

/-- Claim C2 counterexample: the review endpoint accepts a request whose
target status is pending; it passes the pending guard, stamps the post,
and leaves it pending — so a second review attempt on the very same post
by the same moderator succeeds instead of failing with the conflict
error. -/
theorem second_review_attempt_can_succeed :
    review_post "p1" ⟨.pending, "m1"⟩ modC2 11 stC2 = .ok stC2a ∧
    review_post "p1" ⟨.approved, "m1"⟩ modC2 12 stC2a ≠
      .error alreadyReviewedErr := by
  decide

/-- Claim C2 (amended): a successful review only ever rewrites a pending
post, setting the requested status, so a status value never leaves
approved or rejected once reached (and no other operation — resonate,
cherish, create — changes any existing post's status); after a review
whose requested status is approved or rejected, every further review
attempt on that post by a privileged caller fails with the conflict error,
while a caller with neither the moderator nor the seed_user role fails
with the authorization error instead; but a review request carrying status
pending leaves the post pending and still reviewable, so a second attempt
does not fail in that case. -/
theorem review_transition_discipline
    (post_id : String) (rd : PostUpdate) (caller : User) (now : Nat) (st : Store) :
    (∀ st1, review_post post_id rd caller now st = .ok st1 →
      st1.users = st.users ∧
      ∃ l₁ l₂ x, st.posts = l₁ ++ x :: l₂ ∧ x.status = .pending ∧
        st1.posts =
          l₁ ++ { x with status := rd.status, reviewed_at := some now, reviewer_id := some caller.id } :: l₂) ∧
    (rd.status ≠ .pending →
      ∀ st1, review_post post_id rd caller now st = .ok st1 →
      ∀ rd2 caller2 now2,
        (caller2.role = .moderator ∨ caller2.role = .seed_user) →
        review_post post_id rd2 caller2 now2 st1 = .error alreadyReviewedErr) ∧
    (¬(caller.role = .moderator ∨ caller.role = .seed_user) →
      review_post post_id rd caller now st = .error moderatorErr) ∧
    ((resonate_post post_id st).posts.map Post.status =
      st.posts.map Post.status) ∧
    ((cherish_post post_id st).posts.map Post.status =
      st.posts.map Post.status) ∧
    (∀ pd u pid2 now2 today, ∃ tail,
      ((create_post pd u pid2 now2 today st).1).posts = st.posts ++ tail ∧
      ∀ q ∈ tail, q.status = .pending) := by
  refine ⟨?_, ?_, ?_, ?_, ?_, ?_⟩
  · intro st1 h
    obtain ⟨_, husers, l₁, l₂, x, hsplit, hx, _, _, hposts⟩ :=
      review_post_ok_decomp h
    exact ⟨husers, l₁, l₂, x, hsplit, hx, hposts⟩
  · intro hrd st1 h rd2 caller2 now2 hrole2
    obtain ⟨_, _, l₁, l₂, x, hsplit, hx, hneg, hxid, hposts⟩ :=
      review_post_ok_decomp h
    have hfind1 : st1.posts.find? (fun p => p.id = post_id) =
        some { x with status := rd.status, reviewed_at := some now, reviewer_id := some caller.id } := by
      rw [hposts]
      exact find?_append_cons _ hneg (by simpa using hxid)
    exact review_post_already_reviewed hrole2 hfind1 (by simpa using hrd)
  · intro ha
    unfold review_post require_moderator
    rw [if_neg ha]
  · simp only [resonate_post]
    exact map_updateFirst (fun p => { p with resonates := p.resonates + 1 })
      Post.status (fun x => rfl) st.posts
  · simp only [cherish_post]
    exact map_updateFirst (fun p => { p with cherishes := p.cherishes + 1 })
      Post.status (fun x => rfl) st.posts
  · intro pd u pid2 now2 today
    cases hcheck : check_daily_limit today u st with
    | mk stc r =>
      have hposts : stc.posts = st.posts := by
        have hcp := check_daily_limit_posts today u st
        rw [hcheck] at hcp
        exact hcp
      cases r with
      | error e =>
        refine ⟨[], ?_, by simp⟩
        simp only [create_post, hcheck]
        simp [hposts]
      | ok u1 =>
        refine ⟨[⟨pid2, u1.id, pd.content, pd.tag, .pending, 0, 0, now2, none, none⟩],
          ?_, ?_⟩
        · simp only [create_post, hcheck]
          simp [hposts]
        · intro q hq
          simp only [List.mem_singleton] at hq
          subst hq
          rfl

/-- Witness for C2 (amended) at a concrete store: approving the pending
post decomposes as stated, a follow-up approval attempt by the moderator
conflicts, and a new_user caller is rejected with the authorization
error. -/
theorem review_transition_discipline_witness :
    (stC2app.users = stC2.users ∧
      ∃ l₁ l₂ x, stC2.posts = l₁ ++ x :: l₂ ∧ x.status = .pending ∧
        stC2app.posts =
          l₁ ++ { x with status := PostStatus.approved, reviewed_at := some 5, reviewer_id := some "m1" } :: l₂) ∧
    review_post "p1" ⟨.rejected, "m1"⟩ modC2 6 stC2app =
      .error alreadyReviewedErr ∧
    review_post "p1" ⟨.approved, "m1"⟩ nonModC3 6 stC2 =
      .error moderatorErr := by
  have h1 := (review_transition_discipline "p1" ⟨.approved, "m1"⟩ modC2 5 stC2).1
    stC2app (by decide)
  have h2 := (review_transition_discipline "p1" ⟨.approved, "m1"⟩ modC2 5 stC2).2.1
    (by decide) stC2app (by decide) ⟨.rejected, "m1"⟩ modC2 6 (Or.inl rfl)
  have h3 := (review_transition_discipline "p1" ⟨.approved, "m1"⟩ nonModC3 6 stC2).2.2.1
    (by decide)
  exact ⟨h1, h2, h3⟩

/-- The auth dependency resolves a slotted user. -/
theorem userSlot_find {c : String} {u : User} {st : Store} (h : userSlot c u st) :
    st.users.find? (fun v => v.clerk_id = c) = some u := by
  obtain ⟨l₁, l₂, hst, hc, h1, _⟩ := h
  rw [hst]
  exact find?_append_cons _ (fun y hy => decide_eq_false (h1 y hy)) (by simp [hc])

/-- One same-day create under the quota: it succeeds, appends exactly one
pending post, and bumps the stored counter by exactly 1. -/
theorem create_step_sameday {c today : String} {u : User} {st : Store}
    (h : userSlot c u st) (hday : u.last_post_date = some today)
    (hq : u.posts_today < 3) (pd : PostCreate) (pid : String) (now : Nat) :
    ∃ st1, create_post_endpoint c pd pid now today st = (st1, .ok pid) ∧
      userSlot c { u with posts_today := u.posts_today + 1 } st1 ∧
      st1.posts = st.posts ++
        [⟨pid, u.id, pd.content, pd.tag, .pending, 0, 0, now, none, none⟩] := by
  obtain ⟨l₁, l₂, hst, hc, h1, h2⟩ := h
  have hfind : st.users.find? (fun v => v.clerk_id = c) = some u :=
    userSlot_find ⟨l₁, l₂, hst, hc, h1, h2⟩
  have hcheck : check_daily_limit today u st = (st, .ok u) := by
    rw [check_daily_limit_sameday st hday, if_neg (by omega)]
  refine ⟨⟨l₁ ++ { u with posts_today := u.posts_today + 1 } :: l₂,
      st.posts ++ [⟨pid, u.id, pd.content, pd.tag, .pending, 0, 0, now, none, none⟩]⟩,
    ?_, ⟨l₁, l₂, rfl, hc, h1, h2⟩, rfl⟩
  simp only [create_post_endpoint, get_current_user, hfind, create_post, hcheck]
  rw [hst, updateFirst_append_cons _ _ (fun y hy => decide_eq_false (h2 y hy)) (by simp)]

/-- The first create of a new calendar day: the rollover reset lands, the
create succeeds, appends one pending post, and leaves the stored counter
at exactly 1 with last_post_date stamped to today. -/
theorem create_step_newday {c today : String} {u : User} {st : Store}
    (h : userSlot c u st) (hday : u.last_post_date ≠ some today)
    (pd : PostCreate) (pid : String) (now : Nat) :
    ∃ st1, create_post_endpoint c pd pid now today st = (st1, .ok pid) ∧
      userSlot c { u with posts_today := 1, last_post_date := some today } st1 ∧
      st1.posts = st.posts ++
        [⟨pid, u.id, pd.content, pd.tag, .pending, 0, 0, now, none, none⟩] := by
  obtain ⟨l₁, l₂, hst, hc, h1, h2⟩ := h
  have hfind : st.users.find? (fun v => v.clerk_id = c) = some u :=
    userSlot_find ⟨l₁, l₂, hst, hc, h1, h2⟩
  have hcheck := check_daily_limit_rollover st hday
  rw [hst, updateFirst_append_cons _ _ (fun y hy => decide_eq_false (h2 y hy)) (by simp)]
    at hcheck
  refine ⟨⟨l₁ ++ { u with posts_today := 1, last_post_date := some today } :: l₂,
      st.posts ++ [⟨pid, u.id, pd.content, pd.tag, .pending, 0, 0, now, none, none⟩]⟩,
    ?_, ⟨l₁, l₂, rfl, hc, h1, h2⟩, rfl⟩
  simp only [create_post_endpoint, get_current_user, hfind, create_post, hcheck]
  rw [updateFirst_append_cons _ _ (fun y hy => decide_eq_false (h2 y hy)) (by simp)]

/-- A same-day create at the quota fails with 429 and changes nothing. -/
theorem create_step_limit {c today : String} {u : User} {st : Store}
    (h : userSlot c u st) (hday : u.last_post_date = some today)
    (hq : 3 ≤ u.posts_today) (pd : PostCreate) (pid : String) (now : Nat) :
    create_post_endpoint c pd pid now today st = (st, .error rateLimitErr) := by
  have hfind := userSlot_find h
  have hcheck : check_daily_limit today u st = (st, .error rateLimitErr) := by
    rw [check_daily_limit_sameday st hday, if_pos hq]
  simp only [create_post_endpoint, get_current_user, hfind, create_post, hcheck]

/-- Running a same-day batch of creates within the remaining quota: every
request succeeds and the stored counter ends at its start plus the batch
size. -/
theorem createSeq_ok (c today : String) :
    ∀ (reqs : List CreateReq) (u : User) (st : Store),
      userSlot c u st → u.last_post_date = some today →
      u.posts_today + reqs.length ≤ 3 →
      ∃ st1, createSeq c today reqs st = (st1, .ok ()) ∧
        userSlot c { u with posts_today := u.posts_today + reqs.length } st1 := by
  intro reqs
  induction reqs with
  | nil =>
    intro u st hslot _ _
    exact ⟨st, rfl, hslot⟩
  | cons r rs ih =>
    intro u st hslot hday hlen
    have hlen2 : u.posts_today + (rs.length + 1) ≤ 3 := by simpa using hlen
    obtain ⟨st1, hstep, hslot1, _⟩ :=
      create_step_sameday hslot hday (by omega) r.pd r.pid r.now
    obtain ⟨st2, hrun, hslot2⟩ :=
      ih { u with posts_today := u.posts_today + 1 } st1 hslot1 hday
        (show u.posts_today + 1 + rs.length ≤ 3 by omega)
    refine ⟨st2, ?_, ?_⟩
    · simp only [createSeq, hstep]
      exact hrun
    · have harith : u.posts_today + 1 + rs.length =
          u.posts_today + (rs.length + 1) := by omega
      simp only [List.length_cons]
      rw [← harith]
      exact hslot2

/-- Claim C1: starting a fresh UTC calendar day, N successful creates by
the same user (N ≤ 3) leave the stored posts_today counter at exactly N,
and when N = 3 any further create attempt that day fails with the 429
rate-limit error; moreover (second conjunct) every successful same-day
create bumps the stored counter by exactly 1. -/
theorem daily_quota_counts
    (c today : String) (u : User) (st : Store) (reqs : List CreateReq)
    (hslot : userSlot c u st) (hday : u.last_post_date ≠ some today)
    (hlen : 1 ≤ reqs.length) (hmax : reqs.length ≤ 3) :
    (∃ st1 u1, createSeq c today reqs st = (st1, .ok ()) ∧
      userSlot c u1 st1 ∧ u1.posts_today = reqs.length ∧
      u1.last_post_date = some today ∧
      (reqs.length = 3 → ∀ pd pid now2,
        create_post_endpoint c pd pid now2 today st1 =
          (st1, .error rateLimitErr))) ∧
    (∀ (st2 st3 : Store) (u2 : User) (pd : PostCreate) (pid : String)
        (now2 : Nat) (rid : String),
      userSlot c u2 st2 → u2.last_post_date = some today →
      create_post_endpoint c pd pid now2 today st2 = (st3, .ok rid) →
      userSlot c { u2 with posts_today := u2.posts_today + 1 } st3) := by
  constructor
  · cases reqs with
    | nil => simp at hlen
    | cons r rs =>
      obtain ⟨st1, hstep, hslot1, _⟩ := create_step_newday hslot hday r.pd r.pid r.now
      have hlen2 : rs.length ≤ 2 := by simpa using hmax
      obtain ⟨st2, hrun, hslot2⟩ := createSeq_ok c today rs
        { u with posts_today := 1, last_post_date := some today } st1 hslot1 rfl
        (show 1 + rs.length ≤ 3 by omega)
      refine ⟨st2,
        { u with posts_today := 1 + rs.length, last_post_date := some today },
        ?_, hslot2, ?_, rfl, ?_⟩
      · simp only [createSeq, hstep]
        exact hrun
      · show 1 + rs.length = (r :: rs).length
        simp only [List.length_cons]
        omega
      · intro h3 pd pid now2
        have h3s : rs.length = 2 := by simpa using h3
        refine create_step_limit hslot2 rfl ?_ pd pid now2
        show 3 ≤ 1 + rs.length
        omega
  · intro st2 st3 u2 pd pid now2 rid hslot3 hday3 hsucc
    by_cases hq : 3 ≤ u2.posts_today
    · rw [create_step_limit hslot3 hday3 hq pd pid now2] at hsucc
      simp at hsucc
    · obtain ⟨st4, heq, hslot4, _⟩ :=
        create_step_sameday hslot3 hday3 (by omega) pd pid now2
      rw [heq] at hsucc
      rw [Prod.mk.injEq] at hsucc
      obtain ⟨h1, -⟩ := hsucc
      subst h1
      exact hslot4

/-- Witness for C1 at a concrete store: a user with a stale 2-posts counter
from the previous day makes 3 creates on 2025-01-02; all succeed, the
stored counter ends at 3, and the fourth attempt 429s. -/
theorem daily_quota_counts_witness :
    userSlot "c1" userC1 stC1 ∧
    (∃ st1 u1, createSeq "c1" "2025-01-02" reqsC1 stC1 = (st1, .ok ()) ∧
      userSlot "c1" u1 st1 ∧ u1.posts_today = 3 ∧
      u1.last_post_date = some "2025-01-02" ∧
      create_post_endpoint "c1" (⟨"four", .ADAPTFLOW⟩ : PostCreate)
        "p4" 14 "2025-01-02" st1 = (st1, .error rateLimitErr)) := by
  have hslot : userSlot "c1" userC1 stC1 :=
    ⟨[], [], rfl, rfl, by simp, by simp⟩
  have h := (daily_quota_counts "c1" "2025-01-02" userC1 stC1 reqsC1 hslot
    (by decide) (by decide) (by decide)).1
  obtain ⟨st1, u1, h1, h2, h3, h4, h5⟩ := h
  exact ⟨hslot, st1, u1, h1, h2, h3, h4, h5 rfl ⟨"four", .ADAPTFLOW⟩ "p4" 14⟩

end NotByAI
